import Mathlib

/-!
Shallow embedding of `readTrc.py` (LeCroy `.trc` waveform decoder).

The input file is modelled as a byte buffer `List ℕ` (entries `< 256`); the
Python file object's seek/read pairs become positioned slices of the buffer.
Python exceptions are modelled by `TrcError`:
  * a `struct.unpack` failure on a short read (read past end of buffer) is
    `.truncated`,
  * an `IndexError` from an out-of-range enum table index, a `ValueError`
    from an invalid `datetime`, and a malformed length in a `struct` format
    string are `.formatError`,
  * an `OSError` from seeking to a negative file position is `.ioError`.
Machine floats (`struct` kinds `f` and `d`) are decoded bit-exactly from
their IEEE-754 representation into `ℚ`; subsequent float arithmetic is
modelled as exact rational arithmetic.  IEEE-754 special values
(exponent field all ones, i.e. infinities and NaNs) are not distinguished:
they decode through the same normal-number formula.  No claim depends on
them.  The reference platform is little-endian (x86-64), so Python
`struct` reads with native byte order (done before the file's endianness
flag is decoded) are little-endian reads.
-/

inductive TrcError where
  | truncated
  | formatError
  | ioError
deriving DecidableEq, Repr

inductive Endi where
  | little
  | big
deriving DecidableEq, Repr

/-- Little-endian value of a byte list (first byte least significant). -/
def leVal (bs : List ℕ) : ℕ :=
  bs.foldr (fun b acc => b + 256 * acc) 0

/-- Big-endian value of a byte list (first byte most significant). -/
def beVal (bs : List ℕ) : ℕ :=
  leVal bs.reverse

/-- Value of a byte list in the given byte order. -/
def ordVal : Endi → List ℕ → ℕ
  | .little, bs => leVal bs
  | .big, bs => beVal bs

/-- Two's-complement reinterpretation of a `w`-byte unsigned value. -/
def toSigned (w : ℕ) (v : ℕ) : ℤ :=
  if v < 2 ^ (8 * w - 1) then (v : ℤ) else (v : ℤ) - 2 ^ (8 * w)

/-- Exact rational value of an IEEE-754 binary64 bit pattern
(`struct` kind `d`): sign `s`, 11-bit exponent `e`, 52-bit mantissa `m`;
a subnormal (`e = 0`) is `±m·2^(-1074)`, a normal number is
`±(2^52 + m)·2^(e - 1075)` (the usual `(1 + m/2^52)·2^(e - 1023)` with
the mantissa cleared of its denominator). -/
def decodeF64 (v : ℕ) : ℚ :=
  let sgn : ℚ := if v / 2 ^ 63 % 2 = 1 then -1 else 1
  let e : ℕ := v / 2 ^ 52 % 2 ^ 11
  let m : ℕ := v % 2 ^ 52
  if e = 0 then sgn * ((m : ℚ) / ((2 ^ 1074 : ℕ) : ℚ))
  else if 1075 ≤ e then sgn * (((2 ^ 52 + m) * 2 ^ (e - 1075) : ℕ) : ℚ)
  else sgn * (((2 ^ 52 + m : ℕ) : ℚ) / ((2 ^ (1075 - e) : ℕ) : ℚ))

/-- Exact rational value of an IEEE-754 binary32 bit pattern
(`struct` kind `f`): sign, 8-bit exponent, 23-bit mantissa; a subnormal
is `±m·2^(-149)`, a normal number is `±(2^23 + m)·2^(e - 150)`. -/
def decodeF32 (v : ℕ) : ℚ :=
  let sgn : ℚ := if v / 2 ^ 31 % 2 = 1 then -1 else 1
  let e : ℕ := v / 2 ^ 23 % 2 ^ 8
  let m : ℕ := v % 2 ^ 23
  if e = 0 then sgn * ((m : ℚ) / ((2 ^ 149 : ℕ) : ℚ))
  else if 150 ≤ e then sgn * (((2 ^ 23 + m) * 2 ^ (e - 150) : ℕ) : ℚ)
  else sgn * (((2 ^ 23 + m : ℕ) : ℚ) / ((2 ^ (150 - e) : ℕ) : ℚ))

/-- Python `int()` on a rational: truncation toward zero. -/
def pyTrunc (q : ℚ) : ℤ :=
  q.num.tdiv q.den

/-- Python `bytes.find`: index of the first occurrence of `needle` in
`hay`, or `-1` when absent. -/
def pyFind (hay needle : List ℕ) : ℤ :=
  match (List.range (hay.length + 1)).find? (fun i => needle.isPrefixOf (hay.drop i)) with
  | some i => (i : ℤ)
  | none => -1

/-- The bytes of the magic marker `b"WAVEDESC"`. -/
def wavedescMarker : List ℕ := [87, 65, 86, 69, 68, 69, 83, 67]

/-- `f.seek(p)` followed by `struct.unpack` of `n` bytes: seeking to a
negative position raises `OSError` (`.ioError`); a read reaching past the
end of the buffer returns too few bytes and `struct.unpack` raises
(`.truncated`). -/
def rdBytes (buf : List ℕ) (p : ℤ) (n : ℕ) : Except TrcError (List ℕ) :=
  if 0 ≤ p then
    if p.toNat + n ≤ buf.length then .ok ((buf.drop p.toNat).take n)
    else .error .truncated
  else .error .ioError

namespace Trc

/-- `Trc._readX` for an integer kind of byte width `w` at address
`adr` relative to the block offset `offs` (the source seeks to
`adr + self._offs`).  `sgn` selects the signed kinds (`b`, `h`, `l`)
over the unsigned kind (`H`). -/
def readIntAt (buf : List ℕ) (e : Endi) (offs adr : ℤ) (w : ℕ) (sgn : Bool) :
    Except TrcError ℤ :=
  (rdBytes buf (adr + offs) w).map
    (fun bs => if sgn then toSigned w (ordVal e bs) else (ordVal e bs : ℤ))

/-- `Trc._readX` for kind `f` (32-bit float). -/
def readF32At (buf : List ℕ) (e : Endi) (offs adr : ℤ) : Except TrcError ℚ :=
  (rdBytes buf (adr + offs) 4).map (fun bs => decodeF32 (ordVal e bs))

/-- `Trc._readX` for kind `d` (64-bit float). -/
def readF64At (buf : List ℕ) (e : Endi) (offs adr : ℤ) : Except TrcError ℚ :=
  (rdBytes buf (adr + offs) 8).map (fun bs => decodeF64 (ordVal e bs))

/-- `Trc._readS`: read an `n`-byte string field and truncate it at the
first NUL byte (`.split(b'\x00')[0]`).  Strings are read byte-for-byte,
unaffected by endianness.  A negative count makes `struct` reject the
format string (`.formatError`).  The value is kept as raw bytes; Python
additionally decodes them as UTF-8 text (raising on invalid text), which
is not modelled since no claim depends on text validity. -/
def readStrAt (buf : List ℕ) (offs adr n : ℤ) : Except TrcError (List ℕ) :=
  if n < 0 then .error .formatError
  else (rdBytes buf (adr + offs) n.toNat).map (List.takeWhile (· ≠ 0))

end Trc

namespace Trc

/-- `Trc._recTypes` (10 entries). -/
def recTypes : List String :=
  ["single_sweep", "interleaved", "histogram", "graph",
   "filter_coefficient", "complex", "extrema",
   "sequence_obsolete", "centered_RIS", "peak_detect"]

/-- `Trc._processings` (8 entries). -/
def processings : List String :=
  ["no_processing", "fir_filter", "interpolated", "sparsed",
   "autoscaled", "no_result", "rolling", "cumulative"]

/-- `Trc._timebases` (49 entries). -/
def timebases : List String :=
  ["1_ps/div", "2_ps/div", "5_ps/div", "10_ps/div", "20_ps/div",
   "50_ps/div", "100_ps/div", "200_ps/div", "500_ps/div", "1_ns/div",
   "2_ns/div", "5_ns/div", "10_ns/div", "20_ns/div", "50_ns/div",
   "100_ns/div", "200_ns/div", "500_ns/div", "1_us/div", "2_us/div",
   "5_us/div", "10_us/div", "20_us/div", "50_us/div", "100_us/div",
   "200_us/div", "500_us/div", "1_ms/div", "2_ms/div", "5_ms/div",
   "10_ms/div", "20_ms/div", "50_ms/div", "100_ms/div", "200_ms/div",
   "500_ms/div", "1_s/div", "2_s/div", "5_s/div", "10_s/div",
   "20_s/div", "50_s/div", "100_s/div", "200_s/div", "500_s/div",
   "1_ks/div", "2_ks/div", "5_ks/div", "EXTERNAL"]

/-- `Trc._vCouplings` (5 entries). -/
def vCouplings : List String :=
  ["DC_50_Ohms", "ground", "DC_1MOhm", "ground", "AC,_1MOhm"]

/-- `Trc._vGains` (28 entries). -/
def vGains : List String :=
  ["1_uV/div", "2_uV/div", "5_uV/div", "10_uV/div", "20_uV/div",
   "50_uV/div", "100_uV/div", "200_uV/div", "500_uV/div", "1_mV/div",
   "2_mV/div", "5_mV/div", "10_mV/div", "20_mV/div", "50_mV/div",
   "100_mV/div", "200_mV/div", "500_mV/div", "1_V/div", "2_V/div",
   "5_V/div", "10_V/div", "20_V/div", "50_V/div", "100_V/div",
   "200_V/div", "500_V/div", "1_kV/div"]

/-- Python tuple indexing `table[i]` with a non-negative index: an index
past the end raises `IndexError` (`.formatError`); no wrap-around and no
default value. -/
def lookupTable (t : List String) (i : ℕ) : Except TrcError String :=
  match t[i]? with
  | some s => .ok s
  | none => .error .formatError

/-- An enumerated metadata field: `table[self._readX("H", adr)]` — a
16-bit unsigned index read at `adr`, then a table lookup. -/
def readEnum (buf : List ℕ) (e : Endi) (offs adr : ℤ) (t : List String) :
    Except TrcError String :=
  do
    let i ← readIntAt buf e offs adr 2 false
    lookupTable t i.toNat

end Trc

/-- The value of `datetime.datetime(Y, M, D, h, m, s, us)`. -/
structure Timestamp where
  year : ℤ
  month : ℤ
  day : ℤ
  hour : ℤ
  minute : ℤ
  second : ℤ
  micro : ℤ
deriving DecidableEq, Repr

/-- Number of days in a month, as validated by `datetime.datetime`. -/
def daysInMonth (y m : ℤ) : ℤ :=
  if m = 2 then (if y % 4 = 0 ∧ (y % 100 ≠ 0 ∨ y % 400 = 0) then 29 else 28)
  else if m = 4 ∨ m = 6 ∨ m = 9 ∨ m = 11 then 30
  else 31

/-- `datetime.datetime(Y, M, D, h, mi, s, us)`: constructs the timestamp
after validating every field's calendar range, raising `ValueError`
(`.formatError`) otherwise. -/
def mkDatetime (Y M D h mi s us : ℤ) : Except TrcError Timestamp :=
  if 1 ≤ Y ∧ Y ≤ 9999 ∧ 1 ≤ M ∧ M ≤ 12 ∧ 1 ≤ D ∧ D ≤ daysInMonth Y M ∧
     0 ≤ h ∧ h ≤ 23 ∧ 0 ≤ mi ∧ mi ≤ 59 ∧ 0 ≤ s ∧ s ≤ 59 ∧
     0 ≤ us ∧ us ≤ 999999
  then .ok ⟨Y, M, D, h, mi, s, us⟩ else .error .formatError

namespace Trc

/-- `Trc._getTimeStamp(adr)`: seek to `adr + offs`, read a double
(seconds), then — at the advancing cursor position — an 8-bit minute,
8-bit hour, 8-bit day, 8-bit month and 16-bit year, and build
`datetime(Y, M, D, h, m, int(s), int((s - int(s)) * 1e6))`. -/
def getTimeStamp (buf : List ℕ) (e : Endi) (offs adr : ℤ) :
    Except TrcError Timestamp := do
  let p := adr + offs
  let sb ← rdBytes buf p 8
  let mb ← rdBytes buf (p + 8) 1
  let hb ← rdBytes buf (p + 9) 1
  let db ← rdBytes buf (p + 10) 1
  let Mb ← rdBytes buf (p + 11) 1
  let Yb ← rdBytes buf (p + 12) 2
  let s := decodeF64 (ordVal e sb)
  mkDatetime (toSigned 2 (ordVal e Yb)) (toSigned 1 (leVal Mb))
    (toSigned 1 (leVal db)) (toSigned 1 (leVal hb)) (toSigned 1 (leVal mb))
    (pyTrunc s) (pyTrunc ((s - (pyTrunc s : ℚ)) * 1000000))

/-- One sample of `np.fromfile` followed by the conditional in-place
`byteswap`: item `k` of width `w` starting at byte `start`, stored in
native little-endian order, then byte-reversed when the file declared
big-endian. -/
def sampleAt (buf : List ℕ) (start w k : ℕ) (e : Endi) : ℤ :=
  let bs := (buf.drop (start + w * k)).take w
  let bs' := if e = .big then bs.reverse else bs
  toSigned w (leVal bs')

/-- `Trc._readSamples`: seek to
`offs + lWAVE_DESCRIPTOR + lUSER_TEXT + lTRIGTIME_ARRAY + lRIS_TIME_ARRAY`
(a negative target raises `OSError`), then
`np.fromfile(f, smplFmt, lWAVE_ARRAY_1)` — which reads `lWAVE_ARRAY_1`
ITEMS (not bytes), or as many complete items as remain in the file if
fewer (a negative count reads everything remaining) — followed by
`y.byteswap(True)` when the declared endianness is big. -/
def readSamples (buf : List ℕ) (offs lWD lUT lTR lRIS lW1 : ℤ)
    (fmt16 : Bool) (e : Endi) : Except TrcError (List ℤ) :=
  let target := offs + lWD + lUT + lTR + lRIS
  if target < 0 then .error .ioError
  else
    let start := target.toNat
    let w := if fmt16 then 2 else 1
    let avail := buf.length - start
    let count := if lW1 < 0 then avail / w else min lW1.toNat (avail / w)
    .ok ((List.range count).map (fun k => sampleAt buf start w k e))

end Trc

/-- A decoded metadata value (Python dict values are heterogeneous). -/
inductive Value where
  | vStr : List ℕ → Value
  | vInt : ℤ → Value
  | vRat : ℚ → Value
  | vBool : Bool → Value
  | vEnum : String → Value
  | vTime : Timestamp → Value
deriving DecidableEq, Repr

namespace Trc

/-- Every value `Trc.open` reads from the file, in source order.  The
reads happen in `readAll`; this record collects their results so that the
pure post-processing (`mkResult`) is separate from the fallible reads. -/
structure Raw where
  offs : ℤ
  templateName : List ℕ
  fmt16 : Bool
  endi : Endi
  lWD : ℤ
  lUT : ℤ
  lTR : ℤ
  lRIS : ℤ
  lW1 : ℤ
  lW2 : ℤ
  instName : List ℕ
  instNum : ℤ
  traceLabel : List ℕ
  waveArrayCount : ℤ
  pntsPerScreen : ℤ
  firstValidPnt : ℤ
  lastValidPnt : ℤ
  firstPoint : ℤ
  sparsingFactor : ℤ
  segmentIndex : ℤ
  subarrayCount : ℤ
  sweepsPerAcq : ℤ
  pointsPerPair : ℤ
  pairOffset : ℤ
  verticalGain : ℚ
  verticalOffset : ℚ
  maxValue : ℚ
  minValue : ℚ
  nominalBits : ℤ
  nomSubarrayCount : ℤ
  horizInterval : ℚ
  horizOffset : ℚ
  pixelOffset : ℚ
  vertUnit : List ℕ
  horUnit : List ℕ
  horizUncertainty : ℚ
  triggerTime : Timestamp
  acqDuration : ℚ
  recordType : String
  processingDone : String
  risSweeps : ℤ
  timebase : String
  vertCoupling : String
  probeAtt : ℚ
  fixedVertGain : String
  bandwidthLimit : Bool
  verticalVernier : ℚ
  acqVertOffset : ℚ
  waveSource : ℤ
  userText : List ℕ
  samples : List ℤ

/-- All reads performed by `Trc.open`, in the order the source performs
them.  `offs = temp.find(b'WAVEDESC')` on the first 64 bytes (`-1` when
absent — the source does not check).  The two 16-bit flags at +32 and +34
are read before the endianness is known, hence in native (little-endian)
byte order; everything after uses the decoded endianness.  The template
name mismatch is only a warning in the source and has no effect. -/
def readAll (buf : List ℕ) : Except TrcError Raw := do
  let offs : ℤ := pyFind (buf.take 64) wavedescMarker
  let templateName ← readStrAt buf offs 16 16
  let fmtv ← readIntAt buf .little offs 32 2 false
  let fmt16 : Bool := fmtv != 0
  let ev ← readIntAt buf .little offs 34 2 false
  let endi : Endi := if ev ≠ 0 then .little else .big
  let lWD ← readIntAt buf endi offs 36 4 true
  let lUT ← readIntAt buf endi offs 40 4 true
  let lTR ← readIntAt buf endi offs 48 4 true
  let lRIS ← readIntAt buf endi offs 52 4 true
  let lW1 ← readIntAt buf endi offs 60 4 true
  let lW2 ← readIntAt buf endi offs 64 4 true
  let instName ← readStrAt buf offs 76 16
  let instNum ← readIntAt buf endi offs 92 4 true
  let traceLabel ← readStrAt buf offs 96 16
  let waveArrayCount ← readIntAt buf endi offs 116 4 true
  let pntsPerScreen ← readIntAt buf endi offs 120 4 true
  let firstValidPnt ← readIntAt buf endi offs 124 4 true
  let lastValidPnt ← readIntAt buf endi offs 128 4 true
  let firstPoint ← readIntAt buf endi offs 132 4 true
  let sparsingFactor ← readIntAt buf endi offs 136 4 true
  let segmentIndex ← readIntAt buf endi offs 140 4 true
  let subarrayCount ← readIntAt buf endi offs 144 4 true
  let sweepsPerAcq ← readIntAt buf endi offs 148 4 true
  let pointsPerPair ← readIntAt buf endi offs 152 2 true
  let pairOffset ← readIntAt buf endi offs 154 2 true
  let verticalGain ← readF32At buf endi offs 156
  let verticalOffset ← readF32At buf endi offs 160
  let maxValue ← readF32At buf endi offs 164
  let minValue ← readF32At buf endi offs 168
  let nominalBits ← readIntAt buf endi offs 172 2 true
  let nomSubarrayCount ← readIntAt buf endi offs 174 2 true
  let horizInterval ← readF32At buf endi offs 176
  let horizOffset ← readF64At buf endi offs 180
  let pixelOffset ← readF64At buf endi offs 188
  let vertUnit ← readStrAt buf offs 196 48
  let horUnit ← readStrAt buf offs 244 48
  let horizUncertainty ← readF32At buf endi offs 292
  let triggerTime ← getTimeStamp buf endi offs 296
  let acqDuration ← readF32At buf endi offs 312
  let recordType ← readEnum buf endi offs 316 recTypes
  let processingDone ← readEnum buf endi offs 318 processings
  let risSweeps ← readIntAt buf endi offs 322 2 true
  let timebase ← readEnum buf endi offs 324 timebases
  let vertCoupling ← readEnum buf endi offs 326 vCouplings
  let probeAtt ← readF32At buf endi offs 328
  let fixedVertGain ← readEnum buf endi offs 332 vGains
  let bwv ← readIntAt buf endi offs 334 2 false
  let bandwidthLimit : Bool := bwv != 0
  let verticalVernier ← readF32At buf endi offs 336
  let acqVertOffset ← readF32At buf endi offs 340
  let waveSource ← readIntAt buf endi offs 344 2 false
  let userText ← readStrAt buf offs lWD lUT
  let samples ← readSamples buf offs lWD lUT lTR lRIS lW1 fmt16 endi
  pure ⟨offs, templateName, fmt16, endi, lWD, lUT, lTR, lRIS, lW1, lW2,
    instName, instNum, traceLabel, waveArrayCount, pntsPerScreen,
    firstValidPnt, lastValidPnt, firstPoint, sparsingFactor, segmentIndex,
    subarrayCount, sweepsPerAcq, pointsPerPair, pairOffset, verticalGain,
    verticalOffset, maxValue, minValue, nominalBits, nomSubarrayCount,
    horizInterval, horizOffset, pixelOffset, vertUnit, horUnit,
    horizUncertainty, triggerTime, acqDuration, recordType, processingDone,
    risSweeps, timebase, vertCoupling, probeAtt, fixedVertGain,
    bandwidthLimit, verticalVernier, acqVertOffset, waveSource, userText,
    samples⟩

/-- The metadata dictionary `d`, with its 40 keys in source insertion
order. -/
def dictOf (r : Raw) : List (String × Value) :=
  [("INSTRUMENT_NAME", .vStr r.instName),
   ("INSTRUMENT_NUMBER", .vInt r.instNum),
   ("TRACE_LABEL", .vStr r.traceLabel),
   ("WAVE_ARRAY_COUNT", .vInt r.waveArrayCount),
   ("PNTS_PER_SCREEN", .vInt r.pntsPerScreen),
   ("FIRST_VALID_PNT", .vInt r.firstValidPnt),
   ("LAST_VALID_PNT", .vInt r.lastValidPnt),
   ("FIRST_POINT", .vInt r.firstPoint),
   ("SPARSING_FACTOR", .vInt r.sparsingFactor),
   ("SEGMENT_INDEX", .vInt r.segmentIndex),
   ("SUBARRAY_COUNT", .vInt r.subarrayCount),
   ("SWEEPS_PER_ACQ", .vInt r.sweepsPerAcq),
   ("POINTS_PER_PAIR", .vInt r.pointsPerPair),
   ("PAIR_OFFSET", .vInt r.pairOffset),
   ("VERTICAL_GAIN", .vRat r.verticalGain),
   ("VERTICAL_OFFSET", .vRat r.verticalOffset),
   ("MAX_VALUE", .vRat r.maxValue),
   ("MIN_VALUE", .vRat r.minValue),
   ("NOMINAL_BITS", .vInt r.nominalBits),
   ("NOM_SUBARRAY_COUNT", .vInt r.nomSubarrayCount),
   ("HORIZ_INTERVAL", .vRat r.horizInterval),
   ("HORIZ_OFFSET", .vRat r.horizOffset),
   ("PIXEL_OFFSET", .vRat r.pixelOffset),
   ("VERTUNIT", .vStr r.vertUnit),
   ("HORUNIT", .vStr r.horUnit),
   ("HORIZ_UNCERTAINTY", .vRat r.horizUncertainty),
   ("TRIGGER_TIME", .vTime r.triggerTime),
   ("ACQ_DURATION", .vRat r.acqDuration),
   ("RECORD_TYPE", .vEnum r.recordType),
   ("PROCESSING_DONE", .vEnum r.processingDone),
   ("RIS_SWEEPS", .vInt r.risSweeps),
   ("TIMEBASE", .vEnum r.timebase),
   ("VERT_COUPLING", .vEnum r.vertCoupling),
   ("PROBE_ATT", .vRat r.probeAtt),
   ("FIXED_VERT_GAIN", .vEnum r.fixedVertGain),
   ("BANDWIDTH_LIMIT", .vBool r.bandwidthLimit),
   ("VERTICAL_VERNIER", .vRat r.verticalVernier),
   ("ACQ_VERT_OFFSET", .vRat r.acqVertOffset),
   ("WAVE_SOURCE", .vInt r.waveSource),
   ("USER_TEXT", .vStr r.userText)]

/-- The pure tail of `Trc.open`:
`y = VERTICAL_GAIN * raw - VERTICAL_OFFSET`, then
`x = arange(1, len(y)+1) * HORIZ_INTERVAL + HORIZ_OFFSET`, and the
metadata dictionary. -/
def mkResult (r : Raw) : List ℚ × List ℚ × List (String × Value) :=
  let y := r.samples.map (fun v : ℤ => r.verticalGain * (v : ℚ) - r.verticalOffset)
  let x := (List.range y.length).map
    (fun k : ℕ => ((k : ℚ) + 1) * r.horizInterval + r.horizOffset)
  (x, y, dictOf r)

/-- `Trc.open` on a byte buffer: perform all reads, then the pure
post-processing; the `(x, y, d)` triple, or the first error. -/
def openTrc (buf : List ℕ) : Except TrcError (List ℚ × List ℚ × List (String × Value)) :=
  (readAll buf).map mkResult

end Trc

/-- `true` iff the decode produced a result. -/
def resultOk (r : Except TrcError (List ℚ × List ℚ × List (String × Value))) : Bool :=
  match r with
  | .ok _ => true
  | .error _ => false

/-- The 40 metadata keys, in insertion order. -/
def keys40 : List String :=
  ["INSTRUMENT_NAME", "INSTRUMENT_NUMBER", "TRACE_LABEL",
   "WAVE_ARRAY_COUNT", "PNTS_PER_SCREEN", "FIRST_VALID_PNT",
   "LAST_VALID_PNT", "FIRST_POINT", "SPARSING_FACTOR", "SEGMENT_INDEX",
   "SUBARRAY_COUNT", "SWEEPS_PER_ACQ", "POINTS_PER_PAIR", "PAIR_OFFSET",
   "VERTICAL_GAIN", "VERTICAL_OFFSET", "MAX_VALUE", "MIN_VALUE",
   "NOMINAL_BITS", "NOM_SUBARRAY_COUNT", "HORIZ_INTERVAL", "HORIZ_OFFSET",
   "PIXEL_OFFSET", "VERTUNIT", "HORUNIT", "HORIZ_UNCERTAINTY",
   "TRIGGER_TIME", "ACQ_DURATION", "RECORD_TYPE", "PROCESSING_DONE",
   "RIS_SWEEPS", "TIMEBASE", "VERT_COUPLING", "PROBE_ATT",
   "FIXED_VERT_GAIN", "BANDWIDTH_LIMIT", "VERTICAL_VERNIER",
   "ACQ_VERT_OFFSET", "WAVE_SOURCE", "USER_TEXT"]

/-- The located block offset: `temp.find(b'WAVEDESC')` over the first 64
bytes. -/
def blockOffs (buf : List ℕ) : ℤ :=
  pyFind (buf.take 64) wavedescMarker

/-- The endianness the decoder settles on, recomputed from the buffer:
the 16-bit flag at `+34` (read in native little-endian order), non-zero
meaning little-endian. -/
def endiOf (buf : List ℕ) : Endi :=
  if ordVal .little ((buf.drop (34 + blockOffs buf).toNat).take 2) ≠ 0
  then .little else .big

/-- The decoded descriptor length: signed 32-bit at `+36`. -/
def descLenOf (buf : List ℕ) : ℤ :=
  toSigned 4 (ordVal (endiOf buf) ((buf.drop (36 + blockOffs buf).toNat).take 4))

/-- The decoded user-text length: signed 32-bit at `+40`. -/
def uLenOf (buf : List ℕ) : ℤ :=
  toSigned 4 (ordVal (endiOf buf) ((buf.drop (40 + blockOffs buf).toNat).take 4))

/-- Where the user-text read starts, as the spec words it:
`block_offset + descriptor_length`. -/
def userTextStart (buf : List ℕ) : ℤ :=
  blockOffs buf + descLenOf buf

/-- A 345-byte buffer containing no `WAVEDESC` marker: all zeros except
byte 33 (endianness flag region, non-zero so little-endian), byte 35
(descriptor length 1), and bytes 305-308 (a valid trigger date,
2015-06-05, at the offsets shifted by the unchecked `find` result `-1`). -/
def c1buf : List ℕ :=
  ((((((List.replicate 345 0).set 33 1).set 35 1).set 305 5).set 306 6).set 307 223).set 308 7

/-- A well-formed 352-byte buffer: `WAVEDESC` at offset 0, 16-bit sample
format, little-endian, descriptor length 346, user-text length 0, empty
trigger/RIS arrays, `WAVE_ARRAY_1 = 2`, trigger date 2015-01-01, and
sample bytes `[1,0,2,0]` at byte 346. -/
def goodBuf : List ℕ :=
  (((((((((((((List.replicate 352 0).set 0 87).set 1 65).set 2 86).set 3 69).set 4 68).set 5 69).set 6 83).set 7 67).set 32 1).set 34 1).set 36 90).set 37 1)
    |>.set 60 2 |>.set 306 1 |>.set 307 1 |>.set 308 223 |>.set 309 7
    |>.set 346 1 |>.set 348 2

/-- The spec's timestamp example as raw bytes: the double `45.25`
(little-endian IEEE-754), minute 30, hour 14, day 5, month 6, year 2015. -/
def tsExBuf : List ℕ := [0, 0, 0, 0, 0, 160, 70, 64, 30, 14, 5, 6, 223, 7]

/-- Same layout, but the seconds double is `45 + 3/2^22` (bit pattern
`0x4046800006000000`): its fractional part times `10^6` is
`0.7152…`, which truncation and rounding send to different integers. -/
def c5cexBuf : List ℕ := [0, 0, 0, 6, 0, 128, 70, 64, 30, 14, 5, 6, 223, 7]

/-- The decode of `goodBuf` (a successful decode, used to instantiate
universally quantified theorems at a concrete input). -/
def goodTriple : List ℚ × List ℚ × List (String × Value) :=
  match Trc.openTrc goodBuf with
  | .ok t => t
  | .error _ => ([], [], [])


/-- Decidable equality of decode results (needed to evaluate the model on
concrete inputs). -/
instance {e a : Type} [DecidableEq e] [DecidableEq a] : DecidableEq (Except e a) := fun r1 r2 =>
  match r1, r2 with
  | .ok v1, .ok v2 =>
    if h : v1 = v2 then isTrue (by rw [h]) else isFalse (fun hc => h (Except.ok.inj hc))
  | .error e1, .error e2 =>
    if h : e1 = e2 then isTrue (by rw [h]) else isFalse (fun hc => h (Except.error.inj hc))
  | .ok _, .error _ => isFalse (fun hc => Except.noConfusion hc)
  | .error _, .ok _ => isFalse (fun hc => Except.noConfusion hc)

section Helpers

/-- Inversion of a successful `Except` bind. -/
theorem bindOk {α β : Type} {m : Except TrcError α} {f : α → Except TrcError β}
    {b : β} (h : (m >>= f) = .ok b) : ∃ a, m = .ok a ∧ f a = .ok b := by
  cases m with
  | error e => simp [Bind.bind, Except.bind] at h
  | ok a => exact ⟨a, rfl, by simpa [Bind.bind, Except.bind] using h⟩

/-- Inversion of a successful `Except` map. -/
theorem mapOk {α β : Type} {m : Except TrcError α} {f : α → β} {b : β}
    (h : m.map f = .ok b) : ∃ a, m = .ok a ∧ f a = b := by
  cases m with
  | error e => simp [Except.map] at h
  | ok a => exact ⟨a, rfl, by simpa [Except.map] using h⟩

/-- A successful raw read was in bounds and returned the slice. -/
theorem rdBytes_ok {buf : List ℕ} {p : ℤ} {n : ℕ} {bs : List ℕ}
    (h : rdBytes buf p n = .ok bs) :
    0 ≤ p ∧ p.toNat + n ≤ buf.length ∧ bs = (buf.drop p.toNat).take n := by
  unfold rdBytes at h
  split at h
  · split at h
    · exact ⟨‹_›, ‹_›, (Except.ok.inj h).symm⟩
    · simp at h
  · simp at h

/-- Inversion of a successful unsigned integer field read. -/
theorem readIntAt_ok_u {buf : List ℕ} {e : Endi} {offs adr : ℤ} {w : ℕ}
    {v : ℤ} (h : Trc.readIntAt buf e offs adr w false = .ok v) :
    0 ≤ adr + offs ∧ (adr + offs).toNat + w ≤ buf.length ∧
      v = (ordVal e ((buf.drop (adr + offs).toNat).take w) : ℤ) := by
  unfold Trc.readIntAt at h
  obtain ⟨bs, hb, hm⟩ := mapOk h
  obtain ⟨h1, h2, h3⟩ := rdBytes_ok hb
  subst h3
  exact ⟨h1, h2, hm.symm⟩

/-- Inversion of a successful signed integer field read. -/
theorem readIntAt_ok_s {buf : List ℕ} {e : Endi} {offs adr : ℤ} {w : ℕ}
    {v : ℤ} (h : Trc.readIntAt buf e offs adr w true = .ok v) :
    0 ≤ adr + offs ∧ (adr + offs).toNat + w ≤ buf.length ∧
      v = toSigned w (ordVal e ((buf.drop (adr + offs).toNat).take w)) := by
  unfold Trc.readIntAt at h
  obtain ⟨bs, hb, hm⟩ := mapOk h
  obtain ⟨h1, h2, h3⟩ := rdBytes_ok hb
  subst h3
  exact ⟨h1, h2, hm.symm⟩

/-- Inversion of a successful string field read. -/
theorem readStrAt_ok {buf : List ℕ} {offs adr n : ℤ} {bs : List ℕ}
    (h : Trc.readStrAt buf offs adr n = .ok bs) :
    0 ≤ n ∧ 0 ≤ adr + offs ∧ (adr + offs).toNat + n.toNat ≤ buf.length ∧
      bs = ((buf.drop (adr + offs).toNat).take n.toNat).takeWhile (· ≠ 0) := by
  unfold Trc.readStrAt at h
  split at h
  · simp at h
  · obtain ⟨bs0, hb, hm⟩ := mapOk h
    obtain ⟨h1, h2, h3⟩ := rdBytes_ok hb
    subst h3
    exact ⟨by omega, h1, h2, hm.symm⟩

/-- `bytes.find` never returns less than `-1`. -/
theorem pyFind_ge (hay needle : List ℕ) : -1 ≤ pyFind hay needle := by
  unfold pyFind
  split
  · omega
  · omega

/-- Reversing a one-element-or-shorter take is the identity. -/
theorem take_one_reverse (l : List ℕ) : (l.take 1).reverse = l.take 1 := by
  cases l <;> simp

/-- Inversion of a successful `datetime` construction. -/
theorem mkDatetime_ok {Y M D h mi s us : ℤ} {ts : Timestamp}
    (hm : mkDatetime Y M D h mi s us = .ok ts) :
    ts = ⟨Y, M, D, h, mi, s, us⟩ := by
  unfold mkDatetime at hm
  split at hm
  · exact (Except.ok.inj hm).symm
  · simp at hm

end Helpers

/-- Master inversion for a successful decode: the read phase succeeded,
the result is its pure post-processing, and the decoded offset,
endianness, descriptor length, user-text length and user-text value are
the ones recomputed directly from the buffer; moreover the buffer covers
every fixed-offset field (hence has at least 345 bytes). -/
theorem openTrc_ok_inv {buf : List ℕ} {x y : List ℚ} {d : List (String × Value)}
    (h : Trc.openTrc buf = .ok (x, y, d)) :
    ∃ r : Trc.Raw, Trc.readAll buf = .ok r ∧ Trc.mkResult r = (x, y, d) ∧
      r.offs = blockOffs buf ∧ r.endi = endiOf buf ∧
      r.lWD = descLenOf buf ∧ r.lUT = uLenOf buf ∧
      r.userText =
        ((buf.drop (userTextStart buf).toNat).take (uLenOf buf).toNat).takeWhile (· ≠ 0) ∧
      345 ≤ buf.length := by
  obtain ⟨r, hr, hmk⟩ := mapOk h
  refine ⟨r, hr, hmk, ?_⟩
  unfold Trc.readAll at hr
  obtain ⟨templateName, h16, hr⟩ := bindOk hr
  obtain ⟨fmtv, h32, hr⟩ := bindOk hr
  obtain ⟨ev, h34, hr⟩ := bindOk hr
  obtain ⟨lWD, h36, hr⟩ := bindOk hr
  obtain ⟨lUT, h40, hr⟩ := bindOk hr
  obtain ⟨lTR, h48, hr⟩ := bindOk hr
  obtain ⟨lRIS, h52, hr⟩ := bindOk hr
  obtain ⟨lW1, h60, hr⟩ := bindOk hr
  obtain ⟨lW2, h64, hr⟩ := bindOk hr
  obtain ⟨instName, h76, hr⟩ := bindOk hr
  obtain ⟨instNum, h92, hr⟩ := bindOk hr
  obtain ⟨traceLabel, h96, hr⟩ := bindOk hr
  obtain ⟨wac, h116, hr⟩ := bindOk hr
  obtain ⟨pps, h120, hr⟩ := bindOk hr
  obtain ⟨fvp, h124, hr⟩ := bindOk hr
  obtain ⟨lvp, h128, hr⟩ := bindOk hr
  obtain ⟨fp, h132, hr⟩ := bindOk hr
  obtain ⟨sf, h136, hr⟩ := bindOk hr
  obtain ⟨si, h140, hr⟩ := bindOk hr
  obtain ⟨sc, h144, hr⟩ := bindOk hr
  obtain ⟨spa, h148, hr⟩ := bindOk hr
  obtain ⟨ppp, h152, hr⟩ := bindOk hr
  obtain ⟨po, h154, hr⟩ := bindOk hr
  obtain ⟨vg, h156, hr⟩ := bindOk hr
  obtain ⟨vo, h160, hr⟩ := bindOk hr
  obtain ⟨mx, h164, hr⟩ := bindOk hr
  obtain ⟨mn, h168, hr⟩ := bindOk hr
  obtain ⟨nb, h172, hr⟩ := bindOk hr
  obtain ⟨nsc, h174, hr⟩ := bindOk hr
  obtain ⟨hiv, h176, hr⟩ := bindOk hr
  obtain ⟨hov, h180, hr⟩ := bindOk hr
  obtain ⟨pxo, h188, hr⟩ := bindOk hr
  obtain ⟨vu, h196, hr⟩ := bindOk hr
  obtain ⟨hu, h244, hr⟩ := bindOk hr
  obtain ⟨huc, h292, hr⟩ := bindOk hr
  obtain ⟨tt, h296, hr⟩ := bindOk hr
  obtain ⟨ad, h312, hr⟩ := bindOk hr
  obtain ⟨rt, h316, hr⟩ := bindOk hr
  obtain ⟨pd, h318, hr⟩ := bindOk hr
  obtain ⟨rs, h322, hr⟩ := bindOk hr
  obtain ⟨tb, h324, hr⟩ := bindOk hr
  obtain ⟨vcp, h326, hr⟩ := bindOk hr
  obtain ⟨pa, h328, hr⟩ := bindOk hr
  obtain ⟨fvg, h332, hr⟩ := bindOk hr
  obtain ⟨bwv, h334, hr⟩ := bindOk hr
  obtain ⟨vv, h336, hr⟩ := bindOk hr
  obtain ⟨avo, h340, hr⟩ := bindOk hr
  obtain ⟨ws, h344, hr⟩ := bindOk hr
  obtain ⟨ut, hUTr, hr⟩ := bindOk hr
  obtain ⟨smp, hS, hr⟩ := bindOk hr
  have hre : _ = r := Except.ok.inj hr
  subst hre
  have hE : (if ev ≠ 0 then Endi.little else Endi.big) = endiOf buf := by
    have hev := (readIntAt_ok_u h34).2.2
    subst hev
    unfold endiOf blockOffs
    by_cases hz :
        ordVal Endi.little
          ((buf.drop (34 + pyFind (buf.take 64) wavedescMarker).toNat).take 2) = 0
    · simp [hz, Int.natCast_eq_zero]
    · simp [hz, Int.natCast_eq_zero]
  have hWD : lWD = descLenOf buf := by
    have h1 := (readIntAt_ok_s h36).2.2
    rw [hE] at h1
    exact h1
  have hUT40 : lUT = uLenOf buf := by
    have h1 := (readIntAt_ok_s h40).2.2
    rw [hE] at h1
    exact h1
  have hUTval : ut =
      ((buf.drop (userTextStart buf).toNat).take (uLenOf buf).toNat).takeWhile (· ≠ 0) := by
    obtain ⟨_, _, _, hval⟩ := readStrAt_ok hUTr
    rw [hval, hWD, hUT40,
      Int.add_comm (descLenOf buf) (pyFind (buf.take 64) wavedescMarker)]
    rfl
  have hlen : 345 ≤ buf.length := by
    have h1 := (readIntAt_ok_u h344).1
    have h2 := (readIntAt_ok_u h344).2.1
    have h3 := pyFind_ge (buf.take 64) wavedescMarker
    omega
  exact ⟨rfl, hE, hWD, hUT40, hUTval, hlen⟩

set_option maxRecDepth 100000 in
set_option exponentiation.threshold 2000 in
unseal Rat.mul Rat.add Rat.sub Rat.inv in
/-- C1: the spec demands a `FormatError` (and no result) when the leading
bytes lack `WAVEDESC`, but `Trc.open` never checks `find`'s result: on
`c1buf` — which contains no marker, so `find` returns `-1` — the decode
runs to completion at block offset `-1` and returns a full `(x, y, d)`
triple. -/
theorem c1_no_marker_still_decodes :
    pyFind (c1buf.take 64) wavedescMarker = -1 ∧
    resultOk (Trc.openTrc c1buf) = true := by
  constructor
  · decide
  · decide

/-- C2 counterexample: with declared big-endian 16-bit samples, the
on-disk pair `[0x01, 0x00]` decodes to raw sample 256 (its big-endian
value), not 1 as the claim's example states. -/
theorem c2_bigendian_example_is_256 :
    Trc.readSamples [1, 0] 0 0 0 0 0 1 true .big ≠ .ok [1] ∧
    Trc.readSamples [1, 0] 0 0 0 0 0 1 true .big = .ok [256] := by
  constructor
  · decide
  · decide

/-- C2 (amended): with declared big-endian 16-bit samples, every raw
sample is the signed big-endian interpretation of its two on-disk bytes
(read little-endian, then byte-swapped); in particular `[0x01, 0x00]`
yields 256. -/
theorem c2_bigendian_16bit_samples_be (buf : List ℕ)
    (offs lWD lUT lTR lRIS lW1 : ℤ) (ys : List ℤ)
    (h : Trc.readSamples buf offs lWD lUT lTR lRIS lW1 true .big = .ok ys) :
    (∀ k (hk : k < ys.length),
      ys[k] = toSigned 2
        (beVal ((buf.drop ((offs + lWD + lUT + lTR + lRIS).toNat + 2 * k)).take 2))) ∧
    Trc.readSamples [1, 0] 0 0 0 0 0 1 true .big = .ok [256] := by
  constructor
  · intro k hk
    simp only [Trc.readSamples] at h
    split at h
    · simp at h
    · have hys := (Except.ok.inj h).symm
      subst hys
      simp [List.getElem_map, List.getElem_range, Trc.sampleAt, beVal]
  · decide

/-- C2 witness. -/
theorem c2_witness : Trc.readSamples [1, 0] 0 0 0 0 0 1 true .big = .ok [256] :=
  (c2_bigendian_16bit_samples_be [1, 0] 0 0 0 0 0 1 [256] (by decide)).2

/-- C3: `np.fromfile(f, fmt, lWAVE_ARRAY_1)` treats `lWAVE_ARRAY_1` as an
item count, not a byte count: with 16-bit format, `WAVE_ARRAY_1 = 2` and
four bytes available, the code decodes two samples (four bytes) where the
spec's contract (`WAVE_ARRAY_1` bytes, i.e. one 16-bit sample) demands
one. -/
theorem c3_int16_reads_items_not_bytes :
    Trc.readSamples [5, 6, 7, 8] 0 0 0 0 0 2 true .little = .ok [1541, 2055] ∧
    ([1541, 2055] : List ℤ).length ≠ 1 := by
  constructor
  · decide
  · decide

/-- C4: the five enum tables have 10, 8, 5, 49 and 28 entries, and
decoding an enumerated field whose 16-bit index is at or past its table's
length fails with `.formatError` (Python `IndexError`) — no wrap-around,
no default. -/
theorem c4_enum_index_out_of_range_fails :
    (Trc.recTypes.length = 10 ∧ Trc.processings.length = 8 ∧
     Trc.vCouplings.length = 5 ∧ Trc.timebases.length = 49 ∧
     Trc.vGains.length = 28) ∧
    ∀ (buf : List ℕ) (e : Endi) (offs adr : ℤ) (t : List String) (i : ℤ),
      Trc.readIntAt buf e offs adr 2 false = .ok i → (t.length : ℤ) ≤ i →
      Trc.readEnum buf e offs adr t = .error .formatError := by
  constructor
  · exact ⟨by decide, by decide, by decide, by decide, by decide⟩
  · intro buf e offs adr t i hread hle
    have hi := (readIntAt_ok_u hread).2.2
    unfold Trc.readEnum
    rw [hread]
    have hnone : t[i.toNat]? = none := List.getElem?_eq_none (by omega)
    simp [Bind.bind, Except.bind, Trc.lookupTable, hnone]

/-- C4 witness: index 10 into the 10-entry record-type table. -/
theorem c4_witness :
    Trc.readEnum [10, 0] .little 0 0 Trc.recTypes = .error .formatError :=
  c4_enum_index_out_of_range_fails.2 [10, 0] .little 0 0 Trc.recTypes 10
    (by decide) (by decide)

/-- C6: a field read that would run past the end of the buffer fails with
`.truncated` (never a truncated or default value), and a successful
decode implies the buffer covered every fixed-offset field (the last one
ends at block offset +346 and the block offset is at least `-1`, so at
least 345 bytes). -/
theorem c6_read_past_end_is_truncated :
    (∀ (buf : List ℕ) (p : ℤ) (n : ℕ), 0 ≤ p → buf.length < p.toNat + n →
      rdBytes buf p n = .error .truncated) ∧
    ∀ (buf : List ℕ) (x y : List ℚ) (d : List (String × Value)),
      Trc.openTrc buf = .ok (x, y, d) → 345 ≤ buf.length := by
  constructor
  · intro buf p n hp hlt
    unfold rdBytes
    rw [if_pos hp, if_neg (by omega)]
  · intro buf x y d h
    obtain ⟨r, _, _, _, _, _, _, _, hlen⟩ := openTrc_ok_inv h
    exact hlen

/-- C6 witness. -/
theorem c6_witness : rdBytes [] 0 2 = .error .truncated :=
  c6_read_past_end_is_truncated.1 [] 0 2 (by decide) (by decide)

/-- C9: 8-bit samples are never byte-swapped: the declared endianness
does not change the result (`byteswap` on one-byte items is the
identity), and every raw sample is the signed value of its single
on-disk byte. -/
theorem c9_int8_not_byteswapped (buf : List ℕ)
    (offs lWD lUT lTR lRIS lW1 : ℤ) (e : Endi) (ys : List ℤ)
    (h : Trc.readSamples buf offs lWD lUT lTR lRIS lW1 false e = .ok ys) :
    Trc.readSamples buf offs lWD lUT lTR lRIS lW1 false .big =
      Trc.readSamples buf offs lWD lUT lTR lRIS lW1 false .little ∧
    ∀ k (hk : k < ys.length),
      ys[k] = toSigned 1
        (leVal ((buf.drop ((offs + lWD + lUT + lTR + lRIS).toNat + k)).take 1)) := by
  constructor
  · simp only [Trc.readSamples]
    split
    · rfl
    · congr 1
      refine List.map_congr_left ?_
      intro k _
      simp [Trc.sampleAt, take_one_reverse]
  · intro k hk
    simp only [Trc.readSamples] at h
    split at h
    · simp at h
    · have hys := (Except.ok.inj h).symm
      subst hys
      cases e <;>
        simp [List.getElem_map, List.getElem_range, Trc.sampleAt, one_mul,
          take_one_reverse]

/-- C9 witness. -/
theorem c9_witness :
    Trc.readSamples [5] 0 0 0 0 0 1 false .big =
      Trc.readSamples [5] 0 0 0 0 0 1 false .little :=
  (c9_int8_not_byteswapped [5] 0 0 0 0 0 1 .big [5] (by decide)).1

set_option maxRecDepth 100000 in
set_option exponentiation.threshold 2000 in
unseal Rat.mul Rat.add Rat.sub Rat.inv in
/-- C5 counterexample: on a buffer whose seconds double is
`45 + 3/2^22` (bits `0x4046800006000000`), the code's microsecond field
is `int(0.7152…) = 0`, while the claim's formula
`round((seconds - floor(seconds)) * 1e6)` gives 1. -/
theorem c5_micro_truncates_not_rounds :
    Trc.getTimeStamp c5cexBuf .little 0 0 = .ok ⟨2015, 6, 5, 14, 30, 45, 0⟩ ∧
    decodeF64 (leVal (c5cexBuf.take 8)) = 45 + 3 / 4194304 ∧
    round (((45 + 3 / 4194304 : ℚ) - 45) * 1000000) = 1 ∧
    (⟨2015, 6, 5, 14, 30, 45, 0⟩ : Timestamp).micro ≠ 1 := by
  refine ⟨by decide, by decide, ?_, by decide⟩
  rw [round_eq]
  norm_num

set_option maxRecDepth 100000 in
set_option exponentiation.threshold 2000 in
unseal Rat.mul Rat.add Rat.sub Rat.inv in
/-- C5 (amended): a successful timestamp decode reads the seconds double
at the seek target, then minute, hour, day, month and (16-bit) year at
the five strictly consecutive cursor positions after it, and the result
carries integer-truncated seconds and microseconds
`int((seconds - int(seconds)) * 1e6)` — truncated toward zero, not
rounded; on the spec's example (45.25 s, 30 min, 14 h, day 5, month 6,
year 2015) this yields 2015-06-05T14:30:45.250000, since a quarter
second is exact. -/
theorem c5_timestamp_order_and_truncation :
    (∀ (buf : List ℕ) (e : Endi) (offs adr : ℤ) (ts : Timestamp),
      Trc.getTimeStamp buf e offs adr = .ok ts →
      ts.minute = toSigned 1 (leVal ((buf.drop ((adr + offs).toNat + 8)).take 1)) ∧
      ts.hour = toSigned 1 (leVal ((buf.drop ((adr + offs).toNat + 9)).take 1)) ∧
      ts.day = toSigned 1 (leVal ((buf.drop ((adr + offs).toNat + 10)).take 1)) ∧
      ts.month = toSigned 1 (leVal ((buf.drop ((adr + offs).toNat + 11)).take 1)) ∧
      ts.year = toSigned 2 (ordVal e ((buf.drop ((adr + offs).toNat + 12)).take 2)) ∧
      ts.second = pyTrunc (decodeF64 (ordVal e ((buf.drop (adr + offs).toNat).take 8))) ∧
      ts.micro = pyTrunc ((decodeF64 (ordVal e ((buf.drop (adr + offs).toNat).take 8)) -
        (pyTrunc (decodeF64 (ordVal e ((buf.drop (adr + offs).toNat).take 8))) : ℚ)) *
        1000000)) ∧
    Trc.getTimeStamp tsExBuf .little 0 0 = .ok ⟨2015, 6, 5, 14, 30, 45, 250000⟩ := by
  constructor
  · intro buf e offs adr ts h
    unfold Trc.getTimeStamp at h
    obtain ⟨sb, h0, h⟩ := bindOk h
    obtain ⟨mb, h8, h⟩ := bindOk h
    obtain ⟨hb, h9, h⟩ := bindOk h
    obtain ⟨db, h10, h⟩ := bindOk h
    obtain ⟨Mb, h11, h⟩ := bindOk h
    obtain ⟨Yb, h12, h⟩ := bindOk h
    have hts := mkDatetime_ok h
    obtain ⟨hp0, _, hsb⟩ := rdBytes_ok h0
    obtain ⟨_, _, hmb⟩ := rdBytes_ok h8
    obtain ⟨_, _, hhb⟩ := rdBytes_ok h9
    obtain ⟨_, _, hdb⟩ := rdBytes_ok h10
    obtain ⟨_, _, hMb⟩ := rdBytes_ok h11
    obtain ⟨_, _, hYb⟩ := rdBytes_ok h12
    subst hts hsb hmb hhb hdb hMb hYb
    have e8 : (adr + offs + 8).toNat = (adr + offs).toNat + 8 := by omega
    have e9 : (adr + offs + 9).toNat = (adr + offs).toNat + 9 := by omega
    have e10 : (adr + offs + 10).toNat = (adr + offs).toNat + 10 := by omega
    have e11 : (adr + offs + 11).toNat = (adr + offs).toNat + 11 := by omega
    have e12 : (adr + offs + 12).toNat = (adr + offs).toNat + 12 := by omega
    refine ⟨?_, ?_, ?_, ?_, ?_, rfl, rfl⟩
    · dsimp only
      rw [e8]
    · dsimp only
      rw [e9]
    · dsimp only
      rw [e10]
    · dsimp only
      rw [e11]
    · dsimp only
      rw [e12]
  · decide

set_option maxRecDepth 100000 in
set_option exponentiation.threshold 2000 in
unseal Rat.mul Rat.add Rat.sub Rat.inv in
/-- C5 witness: instantiating the amended theorem on the spec's example
buffer. -/
theorem c5_witness :
    Timestamp.second ⟨2015, 6, 5, 14, 30, 45, 250000⟩ =
      pyTrunc (decodeF64 (ordVal .little
        ((tsExBuf.drop ((0 : ℤ) + (0 : ℤ)).toNat).take 8))) :=
  ((c5_timestamp_order_and_truncation.1 tsExBuf .little 0 0
    ⟨2015, 6, 5, 14, 30, 45, 250000⟩ (by decide)).2.2.2.2.2).1

/-- C7: for every successful decode, the time axis has exactly as many
entries as the sample axis and satisfies
`t[k] = (k+1) * HORIZ_INTERVAL + HORIZ_OFFSET` (1-based sample index), so
consecutive entries differ by exactly `HORIZ_INTERVAL`. -/
theorem c7_time_axis_formula (buf : List ℕ) (x y : List ℚ)
    (d : List (String × Value)) (hi ho : ℚ)
    (h : Trc.openTrc buf = .ok (x, y, d))
    (hhi : List.lookup "HORIZ_INTERVAL" d = some (.vRat hi))
    (hho : List.lookup "HORIZ_OFFSET" d = some (.vRat ho)) :
    x.length = y.length ∧
    (∀ k (hk : k < x.length), x.get ⟨k, hk⟩ = ((k : ℚ) + 1) * hi + ho) ∧
    (∀ k (hk : k < x.length), 1 ≤ k →
      x.get ⟨k, hk⟩ - x.get ⟨k - 1, by omega⟩ = hi) := by
  obtain ⟨r, _, hmk, _⟩ := openTrc_ok_inv h
  have hd : d = Trc.dictOf r := by
    have h3 := congrArg (fun t : List ℚ × List ℚ × List (String × Value) => t.2.2) hmk
    simpa [Trc.mkResult] using h3.symm
  have hy : y = r.samples.map (fun v : ℤ => r.verticalGain * (v : ℚ) - r.verticalOffset) := by
    have h3 := congrArg (fun t : List ℚ × List ℚ × List (String × Value) => t.2.1) hmk
    simpa [Trc.mkResult] using h3.symm
  have hx : x = (List.range y.length).map
      (fun k : ℕ => ((k : ℚ) + 1) * r.horizInterval + r.horizOffset) := by
    have h3 := congrArg (fun t : List ℚ × List ℚ × List (String × Value) => t.1) hmk
    rw [hy]
    simpa [Trc.mkResult] using h3.symm
  have hhi2 : hi = r.horizInterval := by
    rw [hd] at hhi
    have hlk : List.lookup "HORIZ_INTERVAL" (Trc.dictOf r) =
        some (.vRat r.horizInterval) := rfl
    rw [hlk] at hhi
    simp only [Option.some.injEq, Value.vRat.injEq] at hhi
    exact hhi.symm
  have hho2 : ho = r.horizOffset := by
    rw [hd] at hho
    have hlk : List.lookup "HORIZ_OFFSET" (Trc.dictOf r) =
        some (.vRat r.horizOffset) := rfl
    rw [hlk] at hho
    simp only [Option.some.injEq, Value.vRat.injEq] at hho
    exact hho.symm
  subst hhi2 hho2 hx
  refine ⟨by simp, ?_, ?_⟩
  · intro k hk
    simp [List.get_eq_getElem, List.getElem_map, List.getElem_range]
  · intro k hk h1
    simp only [List.get_eq_getElem, List.getElem_map, List.getElem_range]
    have hc : ((k - 1 : ℕ) : ℚ) = (k : ℚ) - 1 := by
      rw [Nat.cast_sub h1]
      simp
    rw [hc]
    ring

set_option maxRecDepth 100000 in
set_option exponentiation.threshold 2000 in
unseal Rat.mul Rat.add Rat.sub Rat.inv in
/-- C7 witness. -/
theorem c7_witness : goodTriple.1.length = goodTriple.2.1.length :=
  (c7_time_axis_formula goodBuf goodTriple.1 goodTriple.2.1 goodTriple.2.2 0 0
    (by decide) (by decide) (by decide)).1

/-- C8: for every successful decode, the user-text value is the bytes
read at `block_offset + descriptor_length` (the decoded descriptor
length, not a constant) with the decoded user-text length; and for any
two buffers with the same block offset, the user-text read position
shifts by exactly the difference of their descriptor lengths. -/
theorem c8_user_text_at_computed_offset :
    (∀ (buf : List ℕ) (x y : List ℚ) (d : List (String × Value)),
      Trc.openTrc buf = .ok (x, y, d) →
      List.lookup "USER_TEXT" d = some (.vStr
        (((buf.drop (userTextStart buf).toNat).take (uLenOf buf).toNat).takeWhile (· ≠ 0)))) ∧
    (∀ b1 b2 : List ℕ, blockOffs b1 = blockOffs b2 →
      userTextStart b1 - userTextStart b2 = descLenOf b1 - descLenOf b2) := by
  constructor
  · intro buf x y d h
    obtain ⟨r, _, hmk, _, _, _, _, hutv, _⟩ := openTrc_ok_inv h
    have hd : d = Trc.dictOf r := by
      have h3 := congrArg (fun t : List ℚ × List ℚ × List (String × Value) => t.2.2) hmk
      simpa [Trc.mkResult] using h3.symm
    rw [hd]
    have hlk : List.lookup "USER_TEXT" (Trc.dictOf r) = some (.vStr r.userText) := rfl
    rw [hlk, hutv]
  · intro b1 b2 hob
    unfold userTextStart
    rw [hob]
    ring

set_option maxRecDepth 100000 in
set_option exponentiation.threshold 2000 in
unseal Rat.mul Rat.add Rat.sub Rat.inv in
/-- C8 witness. -/
theorem c8_witness :
    List.lookup "USER_TEXT" goodTriple.2.2 = some (.vStr
      (((goodBuf.drop (userTextStart goodBuf).toNat).take
        (uLenOf goodBuf).toNat).takeWhile (· ≠ 0))) :=
  c8_user_text_at_computed_offset.1 goodBuf goodTriple.1 goodTriple.2.1
    goodTriple.2.2 (by decide)

/-- C10: every successful decode returns a metadata mapping whose keys
are exactly the fixed 40-name list, in insertion order, independent of
the input. -/
theorem c10_metadata_keys_fixed (buf : List ℕ) (x y : List ℚ)
    (d : List (String × Value)) (h : Trc.openTrc buf = .ok (x, y, d)) :
    d.map Prod.fst = keys40 := by
  obtain ⟨r, _, hmk, _⟩ := openTrc_ok_inv h
  have hd : d = Trc.dictOf r := by
    have h3 := congrArg (fun t : List ℚ × List ℚ × List (String × Value) => t.2.2) hmk
    simpa [Trc.mkResult] using h3.symm
  rw [hd]
  rfl

set_option maxRecDepth 100000 in
set_option exponentiation.threshold 2000 in
unseal Rat.mul Rat.add Rat.sub Rat.inv in
/-- C10 witness. -/
theorem c10_witness : goodTriple.2.2.map Prod.fst = keys40 :=
  c10_metadata_keys_fixed goodBuf goodTriple.1 goodTriple.2.1 goodTriple.2.2
    (by decide)
